import Mathlib

/-
  Verification of the iovm repository's execution engines against its
  natural-language specification.

  The repository contains several ISA variants of the same I/O virtual
  machine; each variant relevant to a claim is shallowly embedded below in
  its own namespace:

  * Iovm.ChannelVM  — the 16-opcode channel-based ISA
                      (src/unnamed/part_001, second implementation, with the
                      register declarations of src/unnamed/part_003).
  * Iovm.OpVM       — the 4-opcode state-machine ISA with READ/WRITE/WAIT
                      engine states and host_send_end
                      (src/unnamed/part_001, first implementation, with the
                      declarations of src/unnamed/part_004).
  * Iovm.RegisterVM — the 16-register ISA with a RESUME_CALLBACK state
                      (src/unnamed/part_000, second block, with the first
                      header of src/iovm.h).
  * Iovm.TargetVM   — the 8-target ISA whose WHILE instructions repeat by
                      rewinding the program cursor
                      (src/unnamed/part_000, third block, with the second
                      header of src/iovm.h).

  C machine integers are modelled as Nat with explicit masking:
  uint8_t stores go through u8, uint16_t through u16, uint32_t through u32.
  Program memory is a List Nat of bytes; reading `ptr[i]` is `byteAt`,
  which masks to a byte (the C buffer has type const uint8_t *).  Reads past
  the end of the list yield 0, matching runs on buffers whose tail is
  zero-filled; all concrete runs below stay within their buffers or rely on
  the engines' own bounds checks exactly as the C code does.
  Host callbacks are oracles passed in as function parameters; the engines'
  while-loops take an explicit fuel argument (every concrete theorem
  supplies sufficient fuel, and general theorems quantify over it).
-/

set_option maxRecDepth 4000

namespace Iovm

/-- Read one byte of program memory: `ptr[i]` for a `const uint8_t *` buffer. -/
def byteAt (d : List Nat) (i : Nat) : Nat := d.getD i 0 % 256

/-- Truncation of a store into a uint8_t field. -/
def u8 (x : Nat) : Nat := x % 256

/-- Truncation of a store into a uint16_t field. -/
def u16 (x : Nat) : Nat := x % 65536

/-- Truncation of a store into a uint32_t field. -/
def u32 (x : Nat) : Nat := x % 4294967296

/-- The repository's zero-length translation: `if (l == 0) { l = 256; }`
applied to a length byte. -/
def translate (l : Nat) : Nat := if l = 0 then 256 else l

/-- iovm1_memory_cmp from src/unnamed/part_004 (lines 388-398): the switch on
the 3-bit comparison operator; operators 6 and 7 fall to the default and
return false. -/
def iovm1_memory_cmp (q a b : Nat) : Bool :=
  if q = 0 then a == b
  else if q = 1 then a != b
  else if q = 2 then decide (a < b)
  else if q = 3 then decide (a ≥ b)
  else if q = 4 then decide (a > b)
  else if q = 5 then decide (a ≤ b)
  else false

namespace TargetVM

/- 8-target ISA: second header of src/iovm.h with the implementation in
src/unnamed/part_000 (third block, lines 219-487). -/

def ST_INIT : Nat := 0
def ST_LOADED : Nat := 1
def ST_RESET : Nat := 2
def ST_EXECUTE_NEXT : Nat := 3
def ST_STALLED : Nat := 4
def ST_ENDED : Nat := 5

def SUCCESS : Nat := 0
def ERR_OUT_OF_RANGE : Nat := 1
def ERR_VM_INVALID_OPERATION_FOR_STATE : Nat := 2
def ERR_VM_UNKNOWN_OPCODE : Nat := 3

/-- Program memory slice (struct bslice). -/
structure Bslice where
  ptr : List Nat
  len : Nat
  off : Nat

/-- struct iovm1_state_t of src/iovm.h (second header): the callback state,
including the i_data bslice through which WRITE callbacks advance the
program cursor. -/
structure CbState where
  opcode : Nat
  target : Nat
  address : Nat
  len : Nat
  i_data : Bslice
  comparison : Nat
  completed : Bool

/-- struct iovm1_t of src/iovm.h (second header): eight address registers
(uint32_t, modelled as a total function indexed 0..7). -/
structure VM where
  m : Bslice
  s : Nat
  a : Nat → Nat
  cb : CbState

/-- The four host callbacks.  A C host may keep private mutable state across
invocations, so each callback maps (host state, callback state) to an
updated pair; the host state is an opaque Nat threaded by the engine. -/
structure Host where
  read_cb : Nat × CbState → Nat × CbState
  write_cb : Nat × CbState → Nat × CbState
  while_neq_cb : Nat × CbState → Nat × CbState
  while_eq_cb : Nat × CbState → Nat × CbState

/-- Result of one iovm1_exec call: returned error, mutated VM, host state,
and the program-buffer offsets at which instruction bytes were fetched. -/
structure Res where
  r : Nat
  vm : VM
  hst : Nat
  fetches : List Nat

/-- Record an instruction-byte fetch at offset `o`. -/
def addFetch (o : Nat) (r : Res) : Res := { r with fetches := o :: r.fetches }

/-- Outcome of one iteration of the decode loop: the loop either continues
(configuration opcodes) or the exec call returns. -/
inductive StepOut where
  | cont (n : Nat) (vm : VM) : StepOut
  | stop (r : Nat) (n : Nat) (vm : VM) : StepOut

/-- The opcode of the instruction byte under the cursor:
IOVM1_INST_OPCODE(x) = x & 31. -/
def fetchOp (vm : VM) : Nat := byteAt vm.m.ptr vm.m.off % 32

/-- The target of the instruction byte under the cursor:
IOVM1_INST_TARGET(x) = (x >> 5) & 7. -/
def fetchTgt (vm : VM) : Nat := byteAt vm.m.ptr vm.m.off / 32 % 8

/-- The cursor advance past the instruction byte with the decoded opcode
recorded in the callback state (the fetch `x = m.ptr[m.off++]` and
`cb_state.opcode = ...`). -/
def vmOp (vm : VM) : VM :=
  { vm with m := { vm.m with off := vm.m.off + 1 },
            cb := { vm.cb with opcode := fetchOp vm } }

/-- As vmOp, with the decoded target also recorded (`t = ...`, which the
source writes through a #define alias of cb_state.target). -/
def vmTgt (vm : VM) : VM :=
  { vm with m := { vm.m with off := vm.m.off + 1 },
            cb := { vm.cb with opcode := fetchOp vm, target := fetchTgt vm } }

/-- SETADDR: three little-endian operand bytes into a[t]. -/
def doSetAddr (vm : VM) : VM :=
  let w := vmTgt vm
  { w with
    a := Function.update w.a w.cb.target
      (u32 (byteAt w.m.ptr w.m.off ||| byteAt w.m.ptr (w.m.off + 1) <<< 8 |||
            byteAt w.m.ptr (w.m.off + 2) <<< 16)),
    m := { w.m with off := w.m.off + 3 } }

/-- SETOFFS: two operand bytes replace the low 16 bits of a[t]. -/
def doSetOffs (vm : VM) : VM :=
  let w := vmTgt vm
  { w with
    a := Function.update w.a w.cb.target
      (u32 (w.a w.cb.target &&& 16711680 |||
            (byteAt w.m.ptr w.m.off ||| byteAt w.m.ptr (w.m.off + 1) <<< 8))),
    m := { w.m with off := w.m.off + 2 } }

/-- SETBANK: one operand byte replaces the bank byte of a[t]. -/
def doSetBank (vm : VM) : VM :=
  let w := vmTgt vm
  { w with
    a := Function.update w.a w.cb.target
      (u32 (w.a w.cb.target &&& 65535 ||| byteAt w.m.ptr w.m.off <<< 16)),
    m := { w.m with off := w.m.off + 1 } }

/-- READ: length operand (0 encodes 256), callback invocation, then the
address register is refreshed from the callback's address. -/
def doRead (h : Host) (n : Nat) (vm : VM) : StepOut :=
  let w := vmTgt vm
  let w2 : VM := { w with m := { w.m with off := w.m.off + 1 } }
  let q := h.read_cb (n, { w2.cb with
    len := translate (byteAt w.m.ptr w.m.off), i_data := w2.m,
    address := w2.a w2.cb.target })
  .stop SUCCESS q.1
    { w2 with cb := q.2,
              a := Function.update w2.a w2.cb.target (u32 q.2.address) }

/-- READ_N: as READ without the address-register update. -/
def doReadN (h : Host) (n : Nat) (vm : VM) : StepOut :=
  let w := vmTgt vm
  let w2 : VM := { w with m := { w.m with off := w.m.off + 1 } }
  let q := h.read_cb (n, { w2.cb with
    len := translate (byteAt w.m.ptr w.m.off), i_data := w2.m,
    address := w2.a w2.cb.target })
  .stop SUCCESS q.1 { w2 with cb := q.2 }

/-- WRITE: length operand, callback invocation, address-register update, and
the program cursor is taken back from the callback's i_data. -/
def doWrite (h : Host) (n : Nat) (vm : VM) : StepOut :=
  let w := vmTgt vm
  let w2 : VM := { w with m := { w.m with off := w.m.off + 1 } }
  let q := h.write_cb (n, { w2.cb with
    len := translate (byteAt w.m.ptr w.m.off), i_data := w2.m,
    address := w2.a w2.cb.target })
  .stop SUCCESS q.1
    { w2 with cb := q.2,
              a := Function.update w2.a w2.cb.target (u32 q.2.address),
              m := q.2.i_data }

/-- WRITE_N: as WRITE without the address-register update. -/
def doWriteN (h : Host) (n : Nat) (vm : VM) : StepOut :=
  let w := vmTgt vm
  let w2 : VM := { w with m := { w.m with off := w.m.off + 1 } }
  let q := h.write_cb (n, { w2.cb with
    len := translate (byteAt w.m.ptr w.m.off), i_data := w2.m,
    address := w2.a w2.cb.target })
  .stop SUCCESS q.1 { w2 with cb := q.2, m := q.2.i_data }

/-- WHILE_NEQ: comparison operand; completed is preset true before the
callback, and a callback that clears it makes the engine rewind the cursor
to last_pc, so the same instruction is fetched again on the next call. -/
def doWhileNeq (h : Host) (n : Nat) (vm : VM) : StepOut :=
  let w := vmTgt vm
  let w2 : VM := { w with m := { w.m with off := w.m.off + 1 } }
  let q := h.while_neq_cb (n, { w2.cb with
    comparison := byteAt w.m.ptr w.m.off, i_data := w2.m,
    address := w2.a w2.cb.target, completed := true })
  if q.2.completed then .stop SUCCESS q.1 { w2 with cb := q.2 }
  else .stop SUCCESS q.1
    { w2 with cb := q.2, m := { w2.m with off := vm.m.off } }

/-- WHILE_EQ: as WHILE_NEQ with the other callback. -/
def doWhileEq (h : Host) (n : Nat) (vm : VM) : StepOut :=
  let w := vmTgt vm
  let w2 : VM := { w with m := { w.m with off := w.m.off + 1 } }
  let q := h.while_eq_cb (n, { w2.cb with
    comparison := byteAt w.m.ptr w.m.off, i_data := w2.m,
    address := w2.a w2.cb.target, completed := true })
  if q.2.completed then .stop SUCCESS q.1 { w2 with cb := q.2 }
  else .stop SUCCESS q.1
    { w2 with cb := q.2, m := { w2.m with off := vm.m.off } }

/-- One iteration of the while loop of iovm1_exec (src/unnamed/part_000,
third block, lines 361-474), entered with the fetch at last_pc = m.off:
END stops in ENDED; SETADDR / SETOFFS / SETBANK execute inline and continue;
READ / READ_N / WRITE / WRITE_N invoke their callback and return; WHILE_NEQ /
WHILE_EQ invoke their callback and possibly rewind; unknown opcodes (10..31)
return UnknownOpcode. -/
def step (h : Host) (n : Nat) (vm : VM) : StepOut :=
  if fetchOp vm = 0 then .stop SUCCESS n { vmOp vm with s := ST_ENDED }
  else if fetchOp vm = 1 then .cont n (doSetAddr vm)
  else if fetchOp vm = 2 then .cont n (doSetOffs vm)
  else if fetchOp vm = 3 then .cont n (doSetBank vm)
  else if fetchOp vm = 4 then doRead h n vm
  else if fetchOp vm = 5 then doReadN h n vm
  else if fetchOp vm = 6 then doWrite h n vm
  else if fetchOp vm = 7 then doWriteN h n vm
  else if fetchOp vm = 8 then doWhileNeq h n vm
  else if fetchOp vm = 9 then doWhileEq h n vm
  else .stop ERR_VM_UNKNOWN_OPCODE n (vmTgt vm)

/-- The while loop of iovm1_exec: iterate `step`, recording each
instruction-byte fetch offset. -/
def execLoop (h : Host) : Nat → Nat → VM → Res
  | 0, n, vm => ⟨SUCCESS, vm, n, []⟩
  | fuel + 1, n, vm =>
    if vm.s ≠ ST_EXECUTE_NEXT then ⟨SUCCESS, vm, n, []⟩
    else
      match step h n vm with
      | .cont n2 vm2 => addFetch vm.m.off (execLoop h fuel n2 vm2)
      | .stop r n2 vm2 => ⟨r, vm2, n2, [vm.m.off]⟩

/-- iovm1_exec (src/unnamed/part_000, third block, lines 346-478). -/
def iovm1_exec (h : Host) (fuel n : Nat) (vm : VM) : Res :=
  if vm.s < ST_LOADED then
    ⟨ERR_VM_INVALID_OPERATION_FOR_STATE, vm, n, []⟩
  else
    let vm := if vm.s = ST_LOADED then { vm with s := ST_RESET } else vm
    let vm :=
      if vm.s = ST_RESET then
        { vm with m := { vm.m with off := 0 }, s := ST_EXECUTE_NEXT }
      else vm
    execLoop h fuel n vm

/-- iovm1_init (src/unnamed/part_000, third block, lines 230-253). -/
def iovm1_init (vm : VM) : VM :=
  { vm with s := ST_INIT, a := fun _ => 0, m := ⟨[], 0, 0⟩ }

/-- iovm1_load (src/unnamed/part_000, third block, lines 300-317). -/
def iovm1_load (vm : VM) (proc : Option (List Nat)) (len : Nat) : Nat × VM :=
  if vm.s ≠ ST_INIT then (ERR_VM_INVALID_OPERATION_FOR_STATE, vm)
  else
    match proc with
    | none => (ERR_OUT_OF_RANGE, vm)
    | some p => (SUCCESS, { vm with m := ⟨p, len, 0⟩, s := ST_LOADED })

/-- Drive k consecutive iovm1_exec calls, concatenating the fetch traces. -/
def runN (h : Host) (fuel : Nat) : Nat → Nat → VM → Nat × VM × List Nat
  | 0, n, vm => (n, vm, [])
  | k + 1, n, vm =>
    let r := iovm1_exec h fuel n vm
    let t := runN h fuel k r.hst r.vm
    (t.1, t.2.1, r.fetches ++ t.2.2)

/-- A VM value with every field zeroed, base for concrete runs. -/
def vm0 : VM :=
  { m := ⟨[], 0, 0⟩, s := 0, a := fun _ => 0,
    cb := ⟨0, 0, 0, 0, ⟨[], 0, 0⟩, 0, false⟩ }

end TargetVM

namespace RegisterVM

/- 16-register ISA: first header of src/iovm.h with the implementation in
src/unnamed/part_000 (second block, lines 30-214). -/

def ST_INIT : Nat := 0
def ST_LOADED : Nat := 1
def ST_RESET : Nat := 2
def ST_EXECUTE_NEXT : Nat := 3
def ST_RESUME_CALLBACK : Nat := 4
def ST_ENDED : Nat := 5

def SUCCESS : Nat := 0
def ERR_OUT_OF_RANGE : Nat := 1
def ERR_VM_INVALID_OPERATION_FOR_STATE : Nat := 2
def ERR_VM_UNKNOWN_OPCODE : Nat := 3

/-- Program memory slice. -/
structure Bslice where
  ptr : List Nat
  len : Nat
  off : Nat

/-- struct iovm1_callback_state_t of src/iovm.h (first header): opcode,
register number, target, address, transfer length, comparison byte, program
memory address, and the completion flag. -/
structure CbState where
  o : Nat
  r : Nat
  t : Nat
  a : Nat
  len : Nat
  c : Nat
  p : Nat
  completed : Bool

/-- struct iovm1_t of src/iovm.h (first header): sixteen target and address
registers (uint32_t, modelled as total functions indexed 0..15). -/
structure VM where
  m : Bslice
  s : Nat
  t : Nat → Nat
  a : Nat → Nat
  cbs : CbState

/-- Result of one iovm1_exec call: the returned error, the mutated VM, and
the number of opcode-callback invocations during the call.  This variant's
host interface consists solely of the opcode callback: there is no
host_send_end or any other host function. -/
structure Res where
  r : Nat
  vm : VM
  calls : Nat

/-- iovm1_init (src/unnamed/part_000, second block, lines 30-51): zeroes the
address registers and clears the buffer (the t registers are not
initialized by the source and are left as they are). -/
def iovm1_init (vm : VM) : VM :=
  { vm with s := ST_INIT, a := fun _ => 0, m := ⟨[], 0, 0⟩ }

/-- iovm1_load (src/unnamed/part_000, second block, lines 68-85). -/
def iovm1_load (vm : VM) (proc : Option (List Nat)) (len : Nat) : Nat × VM :=
  if vm.s ≠ ST_INIT then (ERR_VM_INVALID_OPERATION_FOR_STATE, vm)
  else
    match proc with
    | none => (ERR_OUT_OF_RANGE, vm)
    | some p => (SUCCESS, { vm with m := ⟨p, len, 0⟩, s := ST_LOADED })

/-- The while loop of iovm1_exec (src/unnamed/part_000, second block, lines
162-211): fetch an instruction byte; opcode 0 ends the procedure, SETADDR
executes inline, the I/O opcodes suspend into RESUME_CALLBACK, and any
opcode value 8..15 falls to the default case, which returns UnknownOpcode
without touching the state and without invoking anything. -/
def execLoop : Nat → VM → Res
  | 0, vm => ⟨SUCCESS, vm, 0⟩
  | fuel + 1, vm =>
    if vm.s ≠ ST_EXECUTE_NEXT then ⟨SUCCESS, vm, 0⟩
    else
      let off := vm.m.off
      let x := byteAt vm.m.ptr off
      let vm := { vm with m := { vm.m with off := off + 1 },
                          cbs := { vm.cbs with o := x % 16 } }
      if x % 16 = 0 then
        -- IOVM1_OPCODE_END
        ⟨SUCCESS, { vm with s := ST_ENDED }, 0⟩
      else
        let r := x / 16 % 16
        let vm :=
          { vm with cbs := { vm.cbs with r := r, a := vm.a r, t := vm.t r,
                                          p := vm.m.off, completed := false } }
        if x % 16 = 1 then
          -- IOVM1_OPCODE_SETADDR
          let t0 := byteAt vm.m.ptr vm.m.off
          let b := byteAt vm.m.ptr (vm.m.off + 1) |||
                   byteAt vm.m.ptr (vm.m.off + 2) <<< 8 |||
                   byteAt vm.m.ptr (vm.m.off + 3) <<< 16
          execLoop fuel
            { vm with t := Function.update vm.t r (u8 t0),
                      a := Function.update vm.a r (u32 b),
                      m := { vm.m with off := vm.m.off + 4 } }
        else if 2 ≤ x % 16 ∧ x % 16 ≤ 5 then
          -- READ, READ_N, WRITE, WRITE_N: record the length operand and
          -- suspend awaiting the callback
          let len := translate (byteAt vm.m.ptr vm.m.off)
          ⟨SUCCESS,
            { vm with cbs := { vm.cbs with len := len, p := vm.m.off + 1 },
                      m := { vm.m with off := vm.m.off + 1 },
                      s := ST_RESUME_CALLBACK }, 0⟩
        else if x % 16 = 6 ∨ x % 16 = 7 then
          -- WHILE_NEQ, WHILE_EQ: record the comparison byte and suspend
          let cc := byteAt vm.m.ptr vm.m.off
          ⟨SUCCESS,
            { vm with cbs := { vm.cbs with c := cc, p := vm.m.off + 1 },
                      m := { vm.m with off := vm.m.off + 1 },
                      s := ST_RESUME_CALLBACK }, 0⟩
        else
          -- default: unknown opcode (values 8..15)
          ⟨ERR_VM_UNKNOWN_OPCODE, vm, 0⟩

/-- iovm1_exec (src/unnamed/part_000, second block, lines 110-214):
re-entering a suspended operation invokes the opcode callback and applies
the post-completion register updates; otherwise lifecycle normalization is
followed by the decode loop. -/
def iovm1_exec (cb : CbState → CbState) (fuel : Nat) (vm : VM) : Res :=
  if vm.s = ST_RESUME_CALLBACK then
    let cbs2 := cb vm.cbs
    let vm := { vm with cbs := cbs2 }
    if cbs2.completed then
      let vm :=
        if cbs2.o = 2 then
          -- READ: update the address register post-completion
          { vm with a := Function.update vm.a cbs2.r (u32 cbs2.a) }
        else if cbs2.o = 4 then
          -- WRITE: address update, then (fallthrough) cursor update
          { vm with a := Function.update vm.a cbs2.r (u32 cbs2.a),
                    m := { vm.m with off := cbs2.p } }
        else if cbs2.o = 5 then
          -- WRITE_N: cursor update only
          { vm with m := { vm.m with off := cbs2.p } }
        else vm
      ⟨SUCCESS, { vm with s := ST_EXECUTE_NEXT }, 1⟩
    else ⟨SUCCESS, vm, 1⟩
  else if vm.s < ST_LOADED then ⟨ERR_VM_INVALID_OPERATION_FOR_STATE, vm, 0⟩
  else
    let vm := if vm.s = ST_LOADED then { vm with s := ST_RESET } else vm
    let vm :=
      if vm.s = ST_RESET then
        { vm with m := { vm.m with off := 0 },
                  cbs := ⟨0, 0, 0, 0, 0, 0, 0, false⟩, s := ST_EXECUTE_NEXT }
      else vm
    execLoop fuel vm

/-- A VM value with every field zeroed, base for concrete runs. -/
def vm0 : VM :=
  { m := ⟨[], 0, 0⟩, s := 0, t := fun _ => 0, a := fun _ => 0,
    cbs := ⟨0, 0, 0, 0, 0, 0, 0, false⟩ }

/-- A host callback that immediately reports completion. -/
def completeCb : CbState → CbState :=
  fun cbs => { cbs with completed := true }

end RegisterVM

namespace ChannelVM

/- 16-opcode channel-based ISA: enum iovm1_state of src/unnamed/part_003. -/

def ST_INIT : Nat := 0
def ST_LOADED : Nat := 1
def ST_RESET : Nat := 2
def ST_EXECUTE_NEXT : Nat := 3
def ST_RESUME_CALLBACK : Nat := 4
def ST_ENDED : Nat := 5

/- enum iovm1_error of src/unnamed/part_003. -/

def SUCCESS : Nat := 0
def ERR_VM_INVALID_OPERATION_FOR_STATE : Nat := 1
def ERR_VM_UNKNOWN_OPCODE : Nat := 2
def ERR_OUT_OF_RANGE : Nat := 128

/-- struct bslice: program memory with a length and an offset cursor. -/
structure Bslice where
  ptr : List Nat
  len : Nat
  off : Nat

/-- struct iovm1_callback_state_t of src/unnamed/part_003, extended with the
tdu / d / u fields that the implementation in src/unnamed/part_001 (second
block, lines 440-530) reads and writes. -/
structure CbState where
  initial : Bool
  complete : Bool
  p : Nat
  m : List Nat
  o : Nat
  c : Nat
  tdu : Nat
  t : Nat
  d : Bool
  u : Bool
  a : Nat
  len : Nat
  tim : Nat
  cmp : Nat
  msk : Nat

/-- struct iovm1_t of src/unnamed/part_003: the per-channel register file
(channels 0..3; modelled as total functions on Nat, only indices 0..3 are
ever used).  Per the declarations there, `a` and `tim` are uint32_t arrays,
`len` is a uint16_t array, and `tdu` (named `tv` in that header), `cmp`,
`msk` are uint8_t arrays. -/
structure VM where
  m : Bslice
  s : Nat
  a : Nat → Nat
  tdu : Nat → Nat
  len : Nat → Nat
  tim : Nat → Nat
  cmp : Nat → Nat
  msk : Nat → Nat
  cbs : CbState

/-- Result of one iovm1_exec call: the returned error code, the mutated VM,
and the number of opcode-callback invocations performed during the call. -/
structure Res where
  r : Nat
  vm : VM
  calls : Nat

/-- iovm1_init (src/unnamed/part_001, second block, lines 305-331): zero the
registers, set msk to 0xFF, clear the buffer, state INIT. -/
def iovm1_init (vm : VM) : VM :=
  { vm with s := ST_INIT,
            a := fun _ => 0, tdu := fun _ => 0, len := fun _ => 0,
            tim := fun _ => 0, cmp := fun _ => 0, msk := fun _ => 255,
            m := { ptr := [], len := 0, off := 0 } }

/-- iovm1_load (src/unnamed/part_001, second block, lines 348-365).  The C
`proc` pointer is modelled as an Option: none is the null pointer. -/
def iovm1_load (vm : VM) (proc : Option (List Nat)) (len : Nat) : Nat × VM :=
  if vm.s ≠ ST_INIT then (ERR_VM_INVALID_OPERATION_FOR_STATE, vm)
  else
    match proc with
    | none => (ERR_OUT_OF_RANGE, vm)
    | some p => (SUCCESS, { vm with m := ⟨p, len, 0⟩, s := ST_LOADED })

/-- iovm1_exec_reset (src/unnamed/part_001, second block, lines 377-387). -/
def iovm1_exec_reset (vm : VM) : Nat × VM :=
  if vm.s < ST_LOADED then (ERR_VM_INVALID_OPERATION_FOR_STATE, vm)
  else if ST_EXECUTE_NEXT ≤ vm.s ∧ vm.s < ST_ENDED then
    (ERR_VM_INVALID_OPERATION_FOR_STATE, vm)
  else (SUCCESS, { vm with s := ST_RESET })

/-- Writeback of the callback's mutation of `struct iovm1_callback_state_t`:
the C callback writes the struct fields directly, so each field is truncated
to its declared width (a, p, len, tim are 32-bit, c is a byte). -/
def cbWriteback (cbs : CbState) : CbState :=
  { cbs with a := u32 cbs.a, p := u32 cbs.p, len := u32 cbs.len,
             tim := u32 cbs.tim, c := u8 cbs.c }

/-- The callback state after one invocation of the host callback: the host's
field writes (truncated to the declared widths) followed by the engine's
clearing of the initial-run flag. -/
def cbAfter (cb : CbState → CbState) (vm : VM) : CbState :=
  { cbWriteback (cb vm.cbs) with initial := false }

/-- iovm1_exec_callback (src/unnamed/part_001, second block, lines 389-422):
invoke the host opcode callback once, clear the initial flag, and on
completion perform the post-completion register updates and return to
EXECUTE_NEXT. -/
def iovm1_exec_callback (cb : CbState → CbState) (vm : VM) : Res :=
  let cbs2 := cbAfter cb vm
  let vm1 : VM := { vm with cbs := cbs2 }
  if cbs2.complete then
    let vm2 : VM :=
      if cbs2.o = 8 then
        -- IOVM1_OPCODE_READ: update the address register post-completion
        -- when bit 7 of the channel's target descriptor is set
        if vm1.tdu cbs2.c &&& 128 ≠ 0 then
          { vm1 with a := Function.update vm1.a cbs2.c (u32 cbs2.a) }
        else vm1
      else if cbs2.o = 9 then
        -- IOVM1_OPCODE_WRITE: same address update, then move the program
        -- cursor past the inline data
        let vmw : VM :=
          if vm1.tdu cbs2.c &&& 128 ≠ 0 then
            { vm1 with a := Function.update vm1.a cbs2.c (u32 cbs2.a) }
          else vm1
        { vmw with m := { vmw.m with off := cbs2.p } }
      else vm1
    ⟨SUCCESS, { vm2 with s := ST_EXECUTE_NEXT }, 1⟩
  else ⟨SUCCESS, vm1, 1⟩

/-- The cbs reset performed on the RESET-to-EXECUTE_NEXT transition
(src/unnamed/part_001, second block, lines 440-453). -/
def resetCbs (cbs : CbState) : CbState :=
  { cbs with o := 0, c := 0, a := 0, tdu := 0, t := 0, d := false, u := false,
             p := 0, cmp := 0, msk := 255, len := 0, tim := 0,
             initial := false, complete := false }

/-- The while loop of iovm1_exec (src/unnamed/part_001, second block,
lines 458-541): fetch an instruction byte, execute configuration opcodes
inline, and hand I/O opcodes to the callback via RESUME_CALLBACK. -/
def execLoop (cb : CbState → CbState) : Nat → VM → Res
  | 0, vm => ⟨SUCCESS, vm, 0⟩
  | fuel + 1, vm =>
    if vm.s ≠ ST_EXECUTE_NEXT then ⟨SUCCESS, vm, 0⟩
    else
      let off := vm.m.off
      let x := byteAt vm.m.ptr off
      let vm := { vm with m := { vm.m with off := off + 1 },
                          cbs := { vm.cbs with o := x % 16 } }
      if x % 16 = 0 then
        -- IOVM1_OPCODE_END
        ⟨SUCCESS, { vm with s := ST_ENDED }, 0⟩
      else
        let c := x / 16 % 4
        let vm := { vm with cbs := { vm.cbs with c := c } }
        if x % 16 = 1 then
          -- SETA8
          let b := byteAt vm.m.ptr vm.m.off
          execLoop cb fuel
            { vm with a := Function.update vm.a c (u32 b),
                      m := { vm.m with off := vm.m.off + 1 } }
        else if x % 16 = 2 then
          -- SETA16
          let b := byteAt vm.m.ptr vm.m.off |||
                   byteAt vm.m.ptr (vm.m.off + 1) <<< 8
          execLoop cb fuel
            { vm with a := Function.update vm.a c (u32 b),
                      m := { vm.m with off := vm.m.off + 2 } }
        else if x % 16 = 3 then
          -- SETA24
          let b := byteAt vm.m.ptr vm.m.off |||
                   byteAt vm.m.ptr (vm.m.off + 1) <<< 8 |||
                   byteAt vm.m.ptr (vm.m.off + 2) <<< 16
          execLoop cb fuel
            { vm with a := Function.update vm.a c (u32 b),
                      m := { vm.m with off := vm.m.off + 3 } }
        else if x % 16 = 4 then
          -- SETTV
          let b := byteAt vm.m.ptr vm.m.off
          execLoop cb fuel
            { vm with tdu := Function.update vm.tdu c (u8 b),
                      m := { vm.m with off := vm.m.off + 1 } }
        else if x % 16 = 5 then
          -- SETLEN: 16-bit little-endian operand into the uint16_t len[c];
          -- the zero operand is rewritten to 65536, which the uint16_t
          -- store truncates
          let b := byteAt vm.m.ptr vm.m.off |||
                   byteAt vm.m.ptr (vm.m.off + 1) <<< 8
          let vm := { vm with len := Function.update vm.len c (u16 b),
                              m := { vm.m with off := vm.m.off + 2 } }
          let vm :=
            if vm.len c = 0 then
              { vm with len := Function.update vm.len c (u16 65536) }
            else vm
          execLoop cb fuel vm
        else if x % 16 = 6 then
          -- SETCMPMSK
          let v := byteAt vm.m.ptr vm.m.off
          let k := byteAt vm.m.ptr (vm.m.off + 1)
          execLoop cb fuel
            { vm with cmp := Function.update vm.cmp c (u8 v),
                      msk := Function.update vm.msk c (u8 k),
                      m := { vm.m with off := vm.m.off + 2 } }
        else if x % 16 = 7 then
          -- SETTIM: the source (src/unnamed/part_001, second block,
          -- lines 501-506) stores the decoded 32-bit value into a[c],
          -- not into tim[c]
          let b := byteAt vm.m.ptr vm.m.off |||
                   byteAt vm.m.ptr (vm.m.off + 1) <<< 8 |||
                   byteAt vm.m.ptr (vm.m.off + 2) <<< 16 |||
                   byteAt vm.m.ptr (vm.m.off + 3) <<< 24
          execLoop cb fuel
            { vm with a := Function.update vm.a c (u32 b),
                      m := { vm.m with off := vm.m.off + 4 } }
        else if 8 ≤ x % 16 then
          -- READ, WRITE, WAIT_WHILE_*: load the callback state from the
          -- channel registers and invoke the callback at least once
          let vm :=
            { vm with
              cbs := { vm.cbs with
                        p := vm.m.off, m := vm.m.ptr,
                        tdu := vm.tdu c, t := vm.tdu c &&& 63,
                        d := vm.tdu c &&& 64 != 0, u := vm.tdu c &&& 128 != 0,
                        a := vm.a c, len := vm.len c, tim := vm.tim c,
                        cmp := vm.cmp c, msk := vm.msk c,
                        initial := true, complete := false },
              s := ST_RESUME_CALLBACK }
          iovm1_exec_callback cb vm
        else
          -- unreachable default of the C switch (every value 0..15 is a
          -- defined opcode)
          ⟨ERR_VM_UNKNOWN_OPCODE, vm, 0⟩

/-- iovm1_exec (src/unnamed/part_001, second block, lines 425-544). -/
def iovm1_exec (cb : CbState → CbState) (fuel : Nat) (vm : VM) : Res :=
  if vm.s = ST_RESUME_CALLBACK then iovm1_exec_callback cb vm
  else if vm.s < ST_LOADED then ⟨ERR_VM_INVALID_OPERATION_FOR_STATE, vm, 0⟩
  else
    let vm := if vm.s = ST_LOADED then { vm with s := ST_RESET } else vm
    let vm :=
      if vm.s = ST_RESET then
        { vm with m := { vm.m with off := 0 }, cbs := resetCbs vm.cbs,
                  s := ST_EXECUTE_NEXT }
      else vm
    execLoop cb fuel vm

/-- A VM value with every field zeroed, used as the base for concrete runs. -/
def vm0 : VM :=
  { m := ⟨[], 0, 0⟩, s := 0,
    a := fun _ => 0, tdu := fun _ => 0, len := fun _ => 0, tim := fun _ => 0,
    cmp := fun _ => 0, msk := fun _ => 0,
    cbs := ⟨false, false, 0, [], 0, 0, 0, 0, false, false, 0, 0, 0, 0, 0⟩ }

/-- Load a concrete procedure into a freshly initialized VM. -/
def loadProc (p : List Nat) : VM :=
  (iovm1_load (iovm1_init vm0) (some p) p.length).2

/-- A host callback that immediately reports completion without touching any
other callback-state field. -/
def completeCb : CbState → CbState :=
  fun cbs => { cbs with complete := true }

end ChannelVM

namespace OpVM

/- 4-opcode state-machine ISA: enum iovm1_state of src/unnamed/part_004
(first header). -/

def ST_INIT : Nat := 0
def ST_LOADED : Nat := 1
def ST_RESET : Nat := 2
def ST_EXECUTE_NEXT : Nat := 3
def ST_READ : Nat := 4
def ST_WRITE : Nat := 5
def ST_WAIT : Nat := 6
def ST_ENDED : Nat := 7
def ST_ERRORED : Nat := 8

/- enum iovm1_error of src/unnamed/part_004 (first header). -/

def SUCCESS : Nat := 0
def ERR_OUT_OF_RANGE : Nat := 1
def ERR_INVALID_OPERATION_FOR_STATE : Nat := 2
def ERR_UNKNOWN_OPCODE : Nat := 3
def ERR_TIMED_OUT : Nat := 4
def ERR_ABORTED : Nat := 5

/- enum iovm1_opstate. -/

def OPSTATE_INIT : Nat := 0
def OPSTATE_CONTINUE : Nat := 1
def OPSTATE_COMPLETED : Nat := 2

/-- Program memory slice. -/
structure Bslice where
  ptr : List Nat
  len : Nat
  off : Nat

/-- The read record `rd` of the union inside struct iovm1_t. -/
structure Rd where
  os : Nat
  c : Nat
  a : Nat
  l_raw : Nat
  l : Nat

/-- The write record `wr`: like `rd` plus the offset `p` into program memory
from which the inline payload is sourced. -/
structure Wr where
  os : Nat
  c : Nat
  a : Nat
  l_raw : Nat
  l : Nat
  p : Nat

/-- The wait record `wa`. -/
structure Wa where
  os : Nat
  c : Nat
  a : Nat
  v : Nat
  k : Nat
  q : Nat

/-- struct iovm1_t of src/unnamed/part_004 (first header).  The C source
overlays rd / wr / wa in a union; the claims below never rely on that
aliasing, so the three records are modelled as separate fields. -/
structure VM where
  m : Bslice
  s : Nat
  e : Nat
  p : Nat
  next_off : Nat
  rd : Rd
  wr : Wr
  wa : Wa

/-- The host interface of src/unnamed/part_004 (first header): the three
operation state machines mutate their records and return an error code, and
the single-byte probe used by ABORT_IF returns an error and a byte. -/
structure Host where
  readSM : Rd → Nat × Rd
  writeSM : Wr → Nat × Wr
  waitSM : Wa → Nat × Wa
  tryRead : Nat → Nat → Nat × Nat

/-- Result of one iovm1_exec call: returned error, mutated VM, number of
host_send_end notifications, number of other host invocations, and the
program-buffer offsets at which instruction bytes were fetched. -/
structure Res where
  r : Nat
  vm : VM
  ends : Nat
  calls : Nat
  fetches : List Nat

/-- Record an instruction-byte fetch at offset `o`. -/
def addFetch (o : Nat) (r : Res) : Res := { r with fetches := o :: r.fetches }

/-- Record one host state-machine invocation. -/
def addCall (r : Res) : Res := { r with calls := r.calls + 1 }

/-- iovm1_init (src/unnamed/part_001, first block, lines 9-20). -/
def iovm1_init (vm : VM) : VM :=
  { vm with s := ST_INIT, m := ⟨[], 0, 0⟩, next_off := 0 }

/-- iovm1_load (src/unnamed/part_001, first block, lines 22-40): the state
precondition is checked before the null-pointer check, and neither failure
mutates the VM. -/
def iovm1_load (vm : VM) (proc : Option (List Nat)) (len : Nat) : Nat × VM :=
  if vm.s ≠ ST_INIT then (ERR_INVALID_OPERATION_FOR_STATE, vm)
  else
    match proc with
    | none => (ERR_OUT_OF_RANGE, vm)
    | some p => (SUCCESS, { vm with m := ⟨p, len, 0⟩, next_off := 0,
                                    s := ST_LOADED })

/-- iovm1_exec_reset (src/unnamed/part_001, first block, lines 52-62). -/
def iovm1_exec_reset (vm : VM) : Nat × VM :=
  if vm.s < ST_LOADED then (ERR_INVALID_OPERATION_FOR_STATE, vm)
  else if ST_EXECUTE_NEXT ≤ vm.s ∧ vm.s < ST_ENDED then
    (ERR_INVALID_OPERATION_FOR_STATE, vm)
  else (SUCCESS, { vm with s := ST_RESET })

/-- Decode of the READ instruction's operands (src/unnamed/part_001, first
block, lines 171-190), applied to a VM whose cursor is just past the
instruction byte. -/
def decodeRead (vm : VM) : VM :=
  let o := vm.m.off
  { vm with
    next_off := o + 5,
    rd := { os := OPSTATE_INIT,
            c := byteAt vm.m.ptr o,
            a := byteAt vm.m.ptr (o + 1) |||
                 byteAt vm.m.ptr (o + 2) <<< 8 |||
                 byteAt vm.m.ptr (o + 3) <<< 16,
            l_raw := byteAt vm.m.ptr (o + 4),
            l := translate (byteAt vm.m.ptr (o + 4)) },
    m := { vm.m with off := o + 5 },
    s := ST_READ }

/-- Decode of the WRITE instruction's operands (src/unnamed/part_001, first
block, lines 192-215): after reading the five operand bytes the engine adds
the decoded payload length to next_off, so next_off points past the inline
data before the write state machine is first entered. -/
def decodeWrite (vm : VM) : VM :=
  let o := vm.m.off
  let l := translate (byteAt vm.m.ptr (o + 4))
  { vm with
    next_off := o + 5 + l,
    wr := { os := OPSTATE_INIT,
            c := byteAt vm.m.ptr o,
            a := byteAt vm.m.ptr (o + 1) |||
                 byteAt vm.m.ptr (o + 2) <<< 8 |||
                 byteAt vm.m.ptr (o + 3) <<< 16,
            l_raw := byteAt vm.m.ptr (o + 4),
            l := l,
            p := o + 5 },
    m := { vm.m with off := o + 5 },
    s := ST_WRITE }

/-- Decode of the WAIT_UNTIL instruction's operands (src/unnamed/part_001,
first block, lines 217-238). -/
def decodeWait (x : Nat) (vm : VM) : VM :=
  let o := vm.m.off
  { vm with
    next_off := o + 6,
    wa := { os := OPSTATE_INIT,
            q := x / 4 % 8,
            c := byteAt vm.m.ptr o,
            a := byteAt vm.m.ptr (o + 1) |||
                 byteAt vm.m.ptr (o + 2) <<< 8 |||
                 byteAt vm.m.ptr (o + 3) <<< 16,
            v := byteAt vm.m.ptr (o + 4),
            k := byteAt vm.m.ptr (o + 5) },
    m := { vm.m with off := o + 6 },
    s := ST_WAIT }

/-- The body of iovm1_exec after the top-level dispatch (src/unnamed/
part_001, first block, lines 69-291): re-enter a pending operation's state
machine, or decode and execute instructions while in EXECUTE_NEXT.  Each
loop iteration and each goto into a state machine consumes one unit of
fuel. -/
def execGo (h : Host) : Nat → VM → Res
  | 0, vm => ⟨vm.e, vm, 0, 0, []⟩
  | fuel + 1, vm =>
    if vm.s = ST_READ then
      let (e2, rd2) := h.readSM vm.rd
      let vm := { vm with rd := rd2, e := e2 }
      if e2 ≠ SUCCESS then ⟨e2, { vm with s := ST_ERRORED }, 1, 1, []⟩
      else if rd2.os = OPSTATE_COMPLETED then
        addCall (execGo h fuel { vm with s := ST_EXECUTE_NEXT, e := SUCCESS })
      else ⟨SUCCESS, { vm with e := SUCCESS }, 0, 1, []⟩
    else if vm.s = ST_WRITE then
      let (e2, wr2) := h.writeSM vm.wr
      let vm := { vm with wr := wr2, e := e2 }
      if e2 ≠ SUCCESS then ⟨e2, { vm with s := ST_ERRORED }, 1, 1, []⟩
      else if wr2.os = OPSTATE_COMPLETED then
        addCall (execGo h fuel { vm with s := ST_EXECUTE_NEXT, e := SUCCESS })
      else ⟨SUCCESS, { vm with e := SUCCESS }, 0, 1, []⟩
    else if vm.s = ST_WAIT then
      let (e2, wa2) := h.waitSM vm.wa
      let vm := { vm with wa := wa2, e := e2 }
      if e2 ≠ SUCCESS then ⟨e2, { vm with s := ST_ERRORED }, 1, 1, []⟩
      else if wa2.os = OPSTATE_COMPLETED then
        addCall (execGo h fuel { vm with s := ST_EXECUTE_NEXT, e := SUCCESS })
      else ⟨SUCCESS, { vm with e := SUCCESS }, 0, 1, []⟩
    else if vm.s = ST_EXECUTE_NEXT then
      let off := vm.next_off
      let vm := { vm with m := { vm.m with off := off }, p := off }
      if vm.m.len ≤ off then
        ⟨SUCCESS, { vm with s := ST_ENDED, e := SUCCESS }, 1, 0, []⟩
      else
        let x := byteAt vm.m.ptr off
        let vm := { vm with m := { vm.m with off := off + 1 } }
        if x % 4 = 0 then
          -- IOVM1_OPCODE_READ: decode operands, then goto do_read
          addFetch off (execGo h fuel (decodeRead vm))
        else if x % 4 = 1 then
          -- IOVM1_OPCODE_WRITE: decode operands (including the payload
          -- reservation in next_off), then goto do_write
          addFetch off (execGo h fuel (decodeWrite vm))
        else if x % 4 = 2 then
          -- IOVM1_OPCODE_WAIT_UNTIL: decode operands, then goto do_wait
          addFetch off (execGo h fuel (decodeWait x vm))
        else
          -- IOVM1_OPCODE_ABORT_IF, executed inline
          let o := vm.m.off
          let q := x / 4 % 8
          let c := byteAt vm.m.ptr o
          let a := byteAt vm.m.ptr (o + 1) |||
                   byteAt vm.m.ptr (o + 2) <<< 8 |||
                   byteAt vm.m.ptr (o + 3) <<< 16
          let v := byteAt vm.m.ptr (o + 4)
          let k := byteAt vm.m.ptr (o + 5)
          let vm := { vm with next_off := o + 6,
                              m := { vm.m with off := o + 6 } }
          let (e2, b) := h.tryRead c a
          if e2 ≠ SUCCESS then
            ⟨e2, { vm with s := ST_ERRORED, e := e2 }, 1, 1, [off]⟩
          else if iovm1_memory_cmp q (u8 b &&& k) v then
            ⟨ERR_ABORTED, { vm with s := ST_ERRORED, e := ERR_ABORTED },
              1, 1, [off]⟩
          else
            ⟨SUCCESS, { vm with e := SUCCESS }, 0, 1, [off]⟩
    else
      -- falling out of the while loop (state is ENDED here)
      ⟨SUCCESS, { vm with e := SUCCESS }, 0, 0, []⟩

/-- iovm1_exec (src/unnamed/part_001, first block, lines 67-292): latched
error short-circuit, pending-operation re-entry, lifecycle normalization
(LOADED to RESET, RESET clears the per-run cursors), then the decode loop. -/
def iovm1_exec (h : Host) (fuel : Nat) (vm : VM) : Res :=
  if vm.s = ST_ERRORED then ⟨vm.e, vm, 0, 0, []⟩
  else if vm.s = ST_READ ∨ vm.s = ST_WRITE ∨ vm.s = ST_WAIT then
    execGo h fuel vm
  else if vm.s < ST_LOADED then
    ⟨ERR_INVALID_OPERATION_FOR_STATE,
      { vm with e := ERR_INVALID_OPERATION_FOR_STATE }, 0, 0, []⟩
  else
    let vm := if vm.s = ST_LOADED then { vm with s := ST_RESET } else vm
    let vm :=
      if vm.s = ST_RESET then
        { vm with m := { vm.m with off := 0 }, next_off := 0, p := 0,
                  e := SUCCESS, s := ST_EXECUTE_NEXT }
      else vm
    execGo h fuel vm

/-- A VM value with every field zeroed, base for concrete runs. -/
def vm0 : VM :=
  { m := ⟨[], 0, 0⟩, s := 0, e := 0, p := 0, next_off := 0,
    rd := ⟨0, 0, 0, 0, 0⟩, wr := ⟨0, 0, 0, 0, 0, 0⟩, wa := ⟨0, 0, 0, 0, 0, 0⟩ }

/-- The state handed to the write state machine when the decode loop, entered
at next_off, dispatches a WRITE instruction: the loop-top cursor assignment
and fetch followed by the WRITE operand decode. -/
def writeEntry (vm : VM) : VM :=
  decodeWrite
    { vm with m := { vm.m with off := vm.next_off + 1 }, p := vm.next_off }

/-- A host whose state machines all complete successfully on their first
invocation and whose byte probe returns 0. -/
def trivialHost : Host :=
  { readSM := fun r => (SUCCESS, { r with os := OPSTATE_COMPLETED }),
    writeSM := fun w => (SUCCESS, { w with os := OPSTATE_COMPLETED }),
    waitSM := fun w => (SUCCESS, { w with os := OPSTATE_COMPLETED }),
    tryRead := fun _ _ => (SUCCESS, 0) }

end OpVM

/-- Claim C9: the comparison helper maps operator code 0 to equality, 1 to
inequality, 2 to less-than, 3 to not-less-than, 4 to greater-than, 5 to
not-greater-than, and codes 6 and 7 always return false, for all byte
values (the theorem holds for all naturals, hence for all bytes). -/
theorem C9_memory_cmp_operator_table (a b : Nat) :
    (iovm1_memory_cmp 0 a b = true ↔ a = b) ∧
    (iovm1_memory_cmp 1 a b = true ↔ a ≠ b) ∧
    (iovm1_memory_cmp 2 a b = true ↔ a < b) ∧
    (iovm1_memory_cmp 3 a b = true ↔ a ≥ b) ∧
    (iovm1_memory_cmp 4 a b = true ↔ a > b) ∧
    (iovm1_memory_cmp 5 a b = true ↔ a ≤ b) ∧
    iovm1_memory_cmp 6 a b = false ∧
    iovm1_memory_cmp 7 a b = false := by
  simp [iovm1_memory_cmp]

/-- Claim C3, counterexample: the claim states that decoding an undefined
opcode makes exec return UnknownOpcode, latch the ERRORED state, and invoke
the host end notification exactly once.  In the 16-register ISA — the
variant of this repository in which an undefined opcode is actually
decodable (IOVM1_INST_OPCODE masks to 0..15 while only 0..7 are defined) —
running the loaded one-byte procedure [0x08] returns UnknownOpcode but
leaves the machine in EXECUTE_NEXT (no terminal error state is latched; the
state enum has no ERRORED member at all) and invokes zero host callbacks,
so no end notification is sent once. -/
theorem C3_unknown_opcode_counterexample :
    let vml := (RegisterVM.iovm1_load (RegisterVM.iovm1_init RegisterVM.vm0)
      (some [8]) 1).2
    let res := RegisterVM.iovm1_exec RegisterVM.completeCb 4 vml
    res.r = RegisterVM.ERR_VM_UNKNOWN_OPCODE ∧
    res.vm.s = RegisterVM.ST_EXECUTE_NEXT ∧
    res.vm.s ≠ RegisterVM.ST_ENDED ∧
    res.calls = 0 ∧ res.calls ≠ 1 := by decide

/-- Claim C3, amended: when exec decodes an instruction byte whose opcode is
not in the defined set, it returns UnknownOpcode, leaves the execution state
at EXECUTE_NEXT (no error state is latched), and invokes no host callback —
in particular no end notification is sent. -/
theorem C3_unknown_opcode_amended (cb : RegisterVM.CbState → RegisterVM.CbState)
    (fuel : Nat) (vm : RegisterVM.VM)
    (hs : vm.s = RegisterVM.ST_EXECUTE_NEXT)
    (hop : 8 ≤ byteAt vm.m.ptr vm.m.off % 16) :
    let res := RegisterVM.iovm1_exec cb (fuel + 1) vm
    res.r = RegisterVM.ERR_VM_UNKNOWN_OPCODE ∧
    res.vm.s = RegisterVM.ST_EXECUTE_NEXT ∧
    res.calls = 0 := by
  intro res
  have h0 : ¬ (byteAt vm.m.ptr vm.m.off % 16 = 0) := by omega
  have h1 : ¬ (byteAt vm.m.ptr vm.m.off % 16 = 1) := by omega
  have h25 : ¬ (2 ≤ byteAt vm.m.ptr vm.m.off % 16 ∧
                byteAt vm.m.ptr vm.m.off % 16 ≤ 5) := by omega
  have h67 : ¬ (byteAt vm.m.ptr vm.m.off % 16 = 6 ∨
                byteAt vm.m.ptr vm.m.off % 16 = 7) := by omega
  have hres : res = ⟨RegisterVM.ERR_VM_UNKNOWN_OPCODE,
      { vm with
        m := { vm.m with off := vm.m.off + 1 },
        cbs := { vm.cbs with
                 o := byteAt vm.m.ptr vm.m.off % 16,
                 r := byteAt vm.m.ptr vm.m.off / 16 % 16,
                 a := vm.a (byteAt vm.m.ptr vm.m.off / 16 % 16),
                 t := vm.t (byteAt vm.m.ptr vm.m.off / 16 % 16),
                 p := vm.m.off + 1, completed := false } }, 0⟩ := by
    show RegisterVM.iovm1_exec cb (fuel + 1) vm = _
    conv_lhs => unfold RegisterVM.iovm1_exec RegisterVM.execLoop
    simp [hs, h0, h1, h25, h67, RegisterVM.ST_EXECUTE_NEXT,
      RegisterVM.ST_RESUME_CALLBACK, RegisterVM.ST_LOADED,
      RegisterVM.ST_RESET]
  rw [hres]
  exact ⟨rfl, hs, rfl⟩

/-- Witness for C3_unknown_opcode_amended at a concrete state: opcode value
12 at the cursor; exec returns UnknownOpcode, stays in EXECUTE_NEXT, and
invokes nothing. -/
theorem C3_unknown_opcode_amended_witness :
    let vmx : RegisterVM.VM :=
      { RegisterVM.vm0 with
        s := RegisterVM.ST_EXECUTE_NEXT, m := ⟨[12], 1, 0⟩ }
    let res := RegisterVM.iovm1_exec RegisterVM.completeCb 3 vmx
    res.r = RegisterVM.ERR_VM_UNKNOWN_OPCODE ∧
    res.vm.s = RegisterVM.ST_EXECUTE_NEXT ∧
    res.calls = 0 :=
  C3_unknown_opcode_amended RegisterVM.completeCb 2
    { RegisterVM.vm0 with
      s := RegisterVM.ST_EXECUTE_NEXT, m := ⟨[12], 1, 0⟩ }
    rfl (by decide)

/-- Claim C1: executing the SETTIM configuration opcode is specified to store
the decoded 32-bit little-endian operand into the timeout register tim[c] and
into no other register.  Evaluating the code at the failing input
proc = [SETTIM(channel 0), 0x01, 0x00, 0x00, 0x00, END] shows that the engine
instead stores the value into the address register a[0] and leaves tim[0]
at 0: the SETTIM case of iovm1_exec writes vm->a[c], contradicting the
opcode's own documentation (set tim = b3 | b2 | b1 | b0). -/
theorem C1_settim_failing_input_eval :
    (ChannelVM.iovm1_exec ChannelVM.completeCb 8
      (ChannelVM.loadProc [7, 1, 0, 0, 0, 0])).vm.tim 0 = 0 ∧
    (ChannelVM.iovm1_exec ChannelVM.completeCb 8
      (ChannelVM.loadProc [7, 1, 0, 0, 0, 0])).vm.a 0 = 1 ∧
    (ChannelVM.iovm1_exec ChannelVM.completeCb 8
      (ChannelVM.loadProc [7, 1, 0, 0, 0, 0])).vm.s = ChannelVM.ST_ENDED ∧
    (ChannelVM.iovm1_exec ChannelVM.completeCb 8
      (ChannelVM.loadProc [7, 1, 0, 0, 0, 0])).r = ChannelVM.SUCCESS := by
  decide

/-- Claim C2: SETLEN with a zero operand is specified to leave the stored
transfer length at the encoding's maximum, 65536 for this 16-bit-length
channel encoding.  Evaluating the code at the failing input
proc = [SETLEN(channel 0), 0x00, 0x00, END] shows the stored length is 0: the
len registers are declared uint16_t, so the assignment of 65536 truncates to
0 and the zero-to-maximum translation is a no-op. -/
theorem C2_setlen_zero_failing_input_eval :
    (ChannelVM.iovm1_exec ChannelVM.completeCb 8
      (ChannelVM.loadProc [5, 0, 0, 0])).vm.len 0 = 0 ∧
    (ChannelVM.iovm1_exec ChannelVM.completeCb 8
      (ChannelVM.loadProc [5, 0, 0, 0])).vm.s = ChannelVM.ST_ENDED ∧
    (ChannelVM.iovm1_exec ChannelVM.completeCb 8
      (ChannelVM.loadProc [5, 0, 0, 0])).r = ChannelVM.SUCCESS := by
  decide

/-- Claim C8, counterexample: the claim states that every successfully
completed READ with the channel's auto-advance bit set leaves a[c] equal to
its prior value plus the transfer length.  Running
proc = [SETTV(0) 0x80, SETLEN(0) 0x02 0x00, READ(0)] with a host callback
that completes immediately without advancing its address (which the callback
interface permits: `a` is a read-write field) gives a read that completed
successfully, auto-advance bit set, transfer length 2, prior address 0 — yet
a[0] ends at 0, not 0 + 2. -/
theorem C8_read_autoadvance_counterexample :
    let r := ChannelVM.iovm1_exec ChannelVM.completeCb 8
      (ChannelVM.loadProc [4, 128, 5, 2, 0, 8])
    r.r = ChannelVM.SUCCESS ∧ r.calls = 1 ∧
    r.vm.s = ChannelVM.ST_EXECUTE_NEXT ∧
    r.vm.tdu 0 &&& 128 ≠ 0 ∧ r.vm.len 0 = 2 ∧
    r.vm.a 0 ≠ 0 + 2 := by decide

/-- Claim C8, amended: when a READ completes, the engine sets a[c] to the
final address reported by the callback (a 32-bit store) if bit 7 of the
channel's target descriptor is set — this equals the prior address plus the
transfer length exactly when the callback advanced its address by the
transfer length — and leaves every address register unchanged when the bit
is clear; registers of other channels are never touched. -/
theorem C8_read_autoadvance_amended (cb : ChannelVM.CbState → ChannelVM.CbState)
    (fuel : Nat) (vm : ChannelVM.VM)
    (hs : vm.s = ChannelVM.ST_RESUME_CALLBACK)
    (ho : (ChannelVM.cbAfter cb vm).o = 8)
    (hc : (ChannelVM.cbAfter cb vm).complete = true) :
    let cbs2 := ChannelVM.cbAfter cb vm
    let r := ChannelVM.iovm1_exec cb fuel vm
    r.r = ChannelVM.SUCCESS ∧ r.vm.s = ChannelVM.ST_EXECUTE_NEXT ∧
    r.calls = 1 ∧
    (vm.tdu cbs2.c &&& 128 ≠ 0 → r.vm.a cbs2.c = Iovm.u32 cbs2.a) ∧
    (vm.tdu cbs2.c &&& 128 = 0 → ∀ j, r.vm.a j = vm.a j) ∧
    (∀ j, j ≠ cbs2.c → r.vm.a j = vm.a j) := by
  intro cbs2 r
  have hexec : r = ChannelVM.iovm1_exec_callback cb vm := by
    simp [r, ChannelVM.iovm1_exec, hs, ChannelVM.ST_RESUME_CALLBACK]
  rw [hexec]
  unfold ChannelVM.iovm1_exec_callback
  simp only [cbs2] at *
  rw [hc, ho]
  simp only [if_pos rfl, if_true]
  by_cases hbit : vm.tdu (ChannelVM.cbAfter cb vm).c &&& 128 = 0
  · simp [hbit]
  · simp [hbit, Function.update_apply]
    intro j hj
    simp [Function.update_apply, hj]

/-- Witness for C8_read_autoadvance_amended at a concrete resume state: the
callback reports final address 55, the channel's bit 7 is set, and a[0]
becomes 55. -/
theorem C8_read_autoadvance_amended_witness :
    let vmr : ChannelVM.VM :=
      { ChannelVM.vm0 with
        s := ChannelVM.ST_RESUME_CALLBACK,
        tdu := fun _ => 128,
        cbs := { ChannelVM.vm0.cbs with o := 8, c := 0, a := 55 } }
    let r := ChannelVM.iovm1_exec ChannelVM.completeCb 4 vmr
    r.r = ChannelVM.SUCCESS ∧ r.vm.s = ChannelVM.ST_EXECUTE_NEXT ∧
    r.vm.a 0 = 55 := by
  intro vmr r
  obtain ⟨h1, h2, -, h4, -, -⟩ :=
    C8_read_autoadvance_amended ChannelVM.completeCb 4 vmr rfl rfl rfl
  exact ⟨h1, h2, h4 (by decide)⟩

/-- In state EXECUTE_NEXT with the cursor in bounds, the instruction-byte
fetch at next_off is the first fetch recorded by the decode loop, whatever
the instruction turns out to be. -/
theorem OpVM.execGo_fetch_head (h : OpVM.Host) (k : Nat) (vm : OpVM.VM)
    (hs : vm.s = OpVM.ST_EXECUTE_NEXT) (hin : vm.next_off < vm.m.len) :
    ∃ rest, (OpVM.execGo h (k + 1) vm).fetches = vm.next_off :: rest := by
  have hnotle : ¬ (vm.m.len ≤ vm.next_off) := Nat.not_le.mpr hin
  unfold OpVM.execGo
  simp only [hs, OpVM.ST_EXECUTE_NEXT, OpVM.ST_READ, OpVM.ST_WRITE,
    OpVM.ST_WAIT]
  norm_num
  simp only [hnotle, if_false]
  split_ifs <;> exact ⟨_, rfl⟩

/-- In state WRITE, when the host write state machine reports success and
completion, the decode loop re-enters EXECUTE_NEXT with the operand cursors
untouched. -/
theorem OpVM.execGo_write_step (h : OpVM.Host) (k : Nat) (vm : OpVM.VM)
    (hs : vm.s = OpVM.ST_WRITE)
    (hw1 : (h.writeSM vm.wr).1 = OpVM.SUCCESS)
    (hw2 : (h.writeSM vm.wr).2.os = OpVM.OPSTATE_COMPLETED) :
    OpVM.execGo h (k + 1) vm =
      OpVM.addCall (OpVM.execGo h k
        { vm with
          wr := (h.writeSM vm.wr).2, e := OpVM.SUCCESS,
          s := OpVM.ST_EXECUTE_NEXT }) := by
  rcases hwr : h.writeSM vm.wr with ⟨e2, wr2⟩
  rw [hwr] at hw1 hw2
  simp only at hw1 hw2
  conv_lhs => unfold OpVM.execGo
  simp [hs, hwr, hw1, hw2, OpVM.ST_READ, OpVM.ST_WRITE, OpVM.ST_WAIT,
    OpVM.OPSTATE_COMPLETED, OpVM.SUCCESS]

/-- Claim C5, counterexample: the claim states that exec_reset fails with
InvalidOperationForState exactly on the in-flight states EXECUTE_NEXT, READ,
WRITE, WAIT, and succeeds in all other states including INIT.  On a VM in
state INIT (the zero VM), exec_reset returns InvalidOperationForState even
though INIT is none of the four in-flight states, so the claimed iff is
false. -/
theorem C5_exec_reset_counterexample :
    OpVM.vm0.s = OpVM.ST_INIT ∧
    OpVM.vm0.s ≠ OpVM.ST_EXECUTE_NEXT ∧ OpVM.vm0.s ≠ OpVM.ST_READ ∧
    OpVM.vm0.s ≠ OpVM.ST_WRITE ∧ OpVM.vm0.s ≠ OpVM.ST_WAIT ∧
    (OpVM.iovm1_exec_reset OpVM.vm0).1 =
      OpVM.ERR_INVALID_OPERATION_FOR_STATE ∧
    (OpVM.iovm1_exec_reset OpVM.vm0).1 ≠ OpVM.SUCCESS := by decide

/-- Claim C5, amended: exec_reset returns InvalidOperationForState iff the
current state is INIT or one of the in-flight states EXECUTE_NEXT, READ,
WRITE, WAIT; on failure the VM is unchanged, and in every other state it
succeeds and transitions the state to RESET. -/
theorem C5_exec_reset_amended (vm : OpVM.VM) :
    ((OpVM.iovm1_exec_reset vm).1 = OpVM.ERR_INVALID_OPERATION_FOR_STATE ↔
      (vm.s = OpVM.ST_INIT ∨ vm.s = OpVM.ST_EXECUTE_NEXT ∨
       vm.s = OpVM.ST_READ ∨ vm.s = OpVM.ST_WRITE ∨ vm.s = OpVM.ST_WAIT)) ∧
    ((OpVM.iovm1_exec_reset vm).1 = OpVM.ERR_INVALID_OPERATION_FOR_STATE →
      (OpVM.iovm1_exec_reset vm).2 = vm) ∧
    ((OpVM.iovm1_exec_reset vm).1 ≠ OpVM.ERR_INVALID_OPERATION_FOR_STATE →
      (OpVM.iovm1_exec_reset vm).1 = OpVM.SUCCESS ∧
      (OpVM.iovm1_exec_reset vm).2 = { vm with s := OpVM.ST_RESET }) := by
  unfold OpVM.iovm1_exec_reset
  simp only [OpVM.ST_INIT, OpVM.ST_LOADED, OpVM.ST_EXECUTE_NEXT, OpVM.ST_READ,
    OpVM.ST_WRITE, OpVM.ST_WAIT, OpVM.ST_ENDED, OpVM.ST_RESET,
    OpVM.ERR_INVALID_OPERATION_FOR_STATE, OpVM.SUCCESS]
  split_ifs with h1 h2 <;> simp <;> omega

/-- Claim C6: once the state is ERRORED (any latched error) or ENDED (whose
latched result is SUCCESS, which the engine stores whenever it sets ENDED),
exec returns the latched result, leaves the whole VM unchanged, and performs
no host invocations — so repeated calls are idempotent until exec_reset. -/
theorem C6_exec_terminal_idempotent (h : OpVM.Host) (fuel : Nat)
    (vm : OpVM.VM)
    (hvm : vm.s = OpVM.ST_ERRORED ∨
           (vm.s = OpVM.ST_ENDED ∧ vm.e = OpVM.SUCCESS)) :
    OpVM.iovm1_exec h fuel vm = ⟨vm.e, vm, 0, 0, []⟩ := by
  rcases hvm with he | ⟨he, hsucc⟩
  · unfold OpVM.iovm1_exec
    simp [he]
  · have hv : ({ vm with e := OpVM.SUCCESS } : OpVM.VM) = vm := by
      rw [← hsucc]
    unfold OpVM.iovm1_exec
    cases fuel with
    | zero =>
      simp [he, OpVM.execGo, OpVM.ST_ENDED, OpVM.ST_ERRORED, OpVM.ST_READ,
        OpVM.ST_WRITE, OpVM.ST_WAIT, OpVM.ST_LOADED, OpVM.ST_RESET]
    | succ k =>
      unfold OpVM.execGo
      simp [he, hsucc, OpVM.ST_ENDED, OpVM.ST_ERRORED, OpVM.ST_READ,
        OpVM.ST_WRITE, OpVM.ST_WAIT, OpVM.ST_LOADED, OpVM.ST_RESET,
        OpVM.ST_EXECUTE_NEXT]
      rw [show (7 : Nat) = OpVM.ST_ENDED from rfl, ← he, ← hsucc]

/-- Witness for C6_exec_terminal_idempotent: a VM latched in ERRORED with
error code ABORTED; exec returns ABORTED and changes nothing. -/
theorem C6_exec_terminal_idempotent_witness :
    OpVM.iovm1_exec OpVM.trivialHost 5
        { OpVM.vm0 with s := OpVM.ST_ERRORED, e := OpVM.ERR_ABORTED } =
      ⟨OpVM.ERR_ABORTED,
        { OpVM.vm0 with s := OpVM.ST_ERRORED, e := OpVM.ERR_ABORTED },
        0, 0, []⟩ :=
  C6_exec_terminal_idempotent OpVM.trivialHost 5
    { OpVM.vm0 with s := OpVM.ST_ERRORED, e := OpVM.ERR_ABORTED }
    (Or.inl rfl)

/-- Claim C7: when the decode loop meets a WRITE instruction at offset p0,
the state handed to the write state machine already has
next_off = p0 + 6 + len (p0 + 6 being the offset just past the length
operand and len the decoded payload length), computed before the first
write-callback invocation; and when the write completes the next
instruction byte is fetched exactly at that offset, past the inline data. -/
theorem C7_write_reserves_payload (h : OpVM.Host) (fuel : Nat)
    (vm : OpVM.VM)
    (hs : vm.s = OpVM.ST_EXECUTE_NEXT)
    (hin : vm.next_off < vm.m.len)
    (hop : byteAt vm.m.ptr vm.next_off % 4 = 1) :
    ∃ vmW : OpVM.VM,
      OpVM.iovm1_exec h (fuel + 1) vm =
        OpVM.addFetch vm.next_off (OpVM.execGo h fuel vmW) ∧
      vmW.s = OpVM.ST_WRITE ∧
      vmW.wr.os = OpVM.OPSTATE_INIT ∧
      vmW.next_off =
        vm.next_off + 6 + translate (byteAt vm.m.ptr (vm.next_off + 5)) ∧
      vmW.wr.p = vm.next_off + 6 ∧
      vmW.wr.l = translate (byteAt vm.m.ptr (vm.next_off + 5)) ∧
      ((h.writeSM vmW.wr).1 = OpVM.SUCCESS →
        (h.writeSM vmW.wr).2.os = OpVM.OPSTATE_COMPLETED →
        vmW.next_off < vm.m.len → 2 ≤ fuel →
        (OpVM.iovm1_exec h (fuel + 1) vm).fetches.take 2 =
          [vm.next_off, vmW.next_off]) := by
  have hnotle : ¬ (vm.m.len ≤ vm.next_off) := Nat.not_le.mpr hin
  have hx0 : ¬ (byteAt vm.m.ptr vm.next_off % 4 = 0) := by omega
  have hmain : ∀ k, OpVM.iovm1_exec h (k + 1) vm =
      OpVM.addFetch vm.next_off (OpVM.execGo h k (OpVM.writeEntry vm)) := by
    intro k
    conv_lhs => unfold OpVM.iovm1_exec OpVM.execGo
    simp [hs, hnotle, hx0, hop, OpVM.writeEntry, OpVM.ST_EXECUTE_NEXT,
      OpVM.ST_ERRORED, OpVM.ST_READ, OpVM.ST_WRITE, OpVM.ST_WAIT,
      OpVM.ST_LOADED, OpVM.ST_RESET]
  refine ⟨OpVM.writeEntry vm, hmain fuel, rfl, rfl, rfl, rfl, rfl, ?_⟩
  intro hw1 hw2 hin2 hfuel
  rw [hmain fuel]
  obtain ⟨f, rfl⟩ : ∃ f, fuel = f + 2 := ⟨fuel - 2, by omega⟩
  have hstep := OpVM.execGo_write_step h (f + 1) (OpVM.writeEntry vm)
    rfl hw1 hw2
  obtain ⟨rest, hr⟩ := OpVM.execGo_fetch_head h f
    { OpVM.writeEntry vm with
      wr := (h.writeSM (OpVM.writeEntry vm).wr).2, e := OpVM.SUCCESS,
      s := OpVM.ST_EXECUTE_NEXT } rfl
    (by simpa [OpVM.writeEntry, OpVM.decodeWrite] using hin2)
  rw [hstep]
  simp [OpVM.addFetch, OpVM.addCall, hr]

/-- A concrete EXECUTE_NEXT state whose next instruction is a WRITE of two
inline payload bytes, followed by a READ instruction at offset 8. -/
def OpVM.c7vm : OpVM.VM :=
  { OpVM.vm0 with
    s := OpVM.ST_EXECUTE_NEXT, m := ⟨[1, 0, 0, 0, 0, 2, 170, 85, 0], 9, 0⟩ }

/-- Witness for C7_write_reserves_payload: on a WRITE of length 2 at offset
0, the next instruction byte is fetched at offset 0 + 6 + 2 = 8, just past
the two inline data bytes. -/
theorem C7_write_reserves_payload_witness :
    (OpVM.iovm1_exec OpVM.trivialHost 11 OpVM.c7vm).fetches.take 2 =
      [0, 8] := by
  obtain ⟨vmW, -, -, -, h4, -, -, h7⟩ :=
    C7_write_reserves_payload OpVM.trivialHost 10 OpVM.c7vm
      rfl (by decide) (by decide)
  have h8 : vmW.next_off = 8 := by rw [h4]; decide
  have hc := h7 rfl rfl (by rw [h8]; decide) (by decide)
  simpa [h8, OpVM.c7vm, OpVM.vm0] using hc

/-- Claim C10: calling load with a null procedure pointer on a VM whose
state is not INIT returns InvalidOperationForState, not OutOfRange — the
state precondition is checked first — and in either failure case (bad state,
or null pointer in state INIT) the VM, its state and its buffer fields, is
returned unchanged. -/
theorem C10_load_null_state_precedence (vm : OpVM.VM) (len : Nat)
    (hs : vm.s ≠ OpVM.ST_INIT) :
    OpVM.iovm1_load vm none len =
      (OpVM.ERR_INVALID_OPERATION_FOR_STATE, vm) ∧
    ∀ vm2 : OpVM.VM, vm2.s = OpVM.ST_INIT →
      OpVM.iovm1_load vm2 none len = (OpVM.ERR_OUT_OF_RANGE, vm2) := by
  constructor
  · simp [OpVM.iovm1_load, hs]
  · intro vm2 h2
    simp [OpVM.iovm1_load, h2]

/-- Witness for C10_load_null_state_precedence: a VM in state LOADED given a
null pointer fails with InvalidOperationForState and is unchanged; the same
call in state INIT fails with OutOfRange and is unchanged. -/
theorem C10_load_null_state_precedence_witness :
    OpVM.iovm1_load { OpVM.vm0 with s := OpVM.ST_LOADED } none 4 =
      (OpVM.ERR_INVALID_OPERATION_FOR_STATE,
        { OpVM.vm0 with s := OpVM.ST_LOADED }) ∧
    OpVM.iovm1_load OpVM.vm0 none 4 = (OpVM.ERR_OUT_OF_RANGE, OpVM.vm0) := by
  obtain ⟨h1, h2⟩ := C10_load_null_state_precedence
    { OpVM.vm0 with s := OpVM.ST_LOADED } 4 (by decide)
  exact ⟨h1, h2 OpVM.vm0 rfl⟩

namespace TargetVM

/-- A host whose WHILE_NEQ callback leaves the wait incomplete on its first
invocation and completes it on every later one (the host state counts the
invocations); all other callbacks return their input unchanged. -/
def pollOnceHost : Host :=
  { read_cb := id, write_cb := id, while_eq_cb := id,
    while_neq_cb := fun q => (q.1 + 1, { q.2 with
      completed := decide (1 ≤ q.1) }) }

end TargetVM

/-- A loop iteration that continues (a configuration opcode) strictly
advances the program cursor and does not change the execution state. -/
theorem TargetVM.step_cont_spec (h : TargetVM.Host) (n n2 : Nat)
    (vm vm2 : TargetVM.VM)
    (heq : TargetVM.step h n vm = .cont n2 vm2) :
    vm.m.off < vm2.m.off ∧ vm2.s = vm.s := by
  by_cases h0 : TargetVM.fetchOp vm = 0
  · simp [TargetVM.step, h0] at heq
  by_cases h1 : TargetVM.fetchOp vm = 1
  · simp [TargetVM.step, h0, h1] at heq
    obtain ⟨-, hv⟩ := heq
    subst hv
    constructor
    · simp only [TargetVM.doSetAddr, TargetVM.vmTgt]
      omega
    · simp [TargetVM.doSetAddr, TargetVM.vmTgt]
  by_cases h2 : TargetVM.fetchOp vm = 2
  · simp [TargetVM.step, h0, h1, h2] at heq
    obtain ⟨-, hv⟩ := heq
    subst hv
    constructor
    · simp only [TargetVM.doSetOffs, TargetVM.vmTgt]
      omega
    · simp [TargetVM.doSetOffs, TargetVM.vmTgt]
  by_cases h3 : TargetVM.fetchOp vm = 3
  · simp [TargetVM.step, h0, h1, h2, h3] at heq
    obtain ⟨-, hv⟩ := heq
    subst hv
    constructor
    · simp only [TargetVM.doSetBank, TargetVM.vmTgt]
      omega
    · simp [TargetVM.doSetBank, TargetVM.vmTgt]
  by_cases h4 : TargetVM.fetchOp vm = 4
  · simp [TargetVM.step, h0, h1, h2, h3, h4, TargetVM.doRead] at heq
  by_cases h5 : TargetVM.fetchOp vm = 5
  · simp [TargetVM.step, h0, h1, h2, h3, h4, h5, TargetVM.doReadN] at heq
  by_cases h6 : TargetVM.fetchOp vm = 6
  · simp [TargetVM.step, h0, h1, h2, h3, h4, h5, h6, TargetVM.doWrite] at heq
  by_cases h7 : TargetVM.fetchOp vm = 7
  · simp [TargetVM.step, h0, h1, h2, h3, h4, h5, h6, h7,
      TargetVM.doWriteN] at heq
  by_cases h8 : TargetVM.fetchOp vm = 8
  · simp only [TargetVM.step, TargetVM.doWhileNeq] at heq
    rw [if_neg h0, if_neg h1, if_neg h2, if_neg h3, if_neg h4, if_neg h5,
      if_neg h6, if_neg h7, if_pos h8] at heq
    split at heq <;> cases heq
  by_cases h9 : TargetVM.fetchOp vm = 9
  · simp only [TargetVM.step, TargetVM.doWhileEq] at heq
    rw [if_neg h0, if_neg h1, if_neg h2, if_neg h3, if_neg h4, if_neg h5,
      if_neg h6, if_neg h7, if_neg h8, if_pos h9] at heq
    split at heq <;> cases heq
  · simp [TargetVM.step, h0, h1, h2, h3, h4, h5, h6, h7, h8, h9] at heq

/-- A loop iteration that returns never moves the program cursor backwards
(given write callbacks that do not move their cursor backwards), and leaves
the execution state unchanged except for END, which sets ENDED. -/
theorem TargetVM.step_stop_spec (h : TargetVM.Host)
    (hw : ∀ n st, st.i_data.off ≤ ((h.write_cb (n, st)).2).i_data.off)
    (n : Nat) (vm : TargetVM.VM) (r n2 : Nat) (vm2 : TargetVM.VM)
    (heq : TargetVM.step h n vm = .stop r n2 vm2) :
    vm.m.off ≤ vm2.m.off ∧ (vm2.s = vm.s ∨ vm2.s = TargetVM.ST_ENDED) := by
  by_cases h0 : TargetVM.fetchOp vm = 0
  · simp [TargetVM.step, h0] at heq
    obtain ⟨-, -, hv⟩ := heq
    subst hv
    constructor
    · simp only [TargetVM.vmOp]
      omega
    · right
      simp [TargetVM.vmOp, TargetVM.ST_ENDED]
  by_cases h1 : TargetVM.fetchOp vm = 1
  · simp [TargetVM.step, h0, h1] at heq
  by_cases h2 : TargetVM.fetchOp vm = 2
  · simp [TargetVM.step, h0, h1, h2] at heq
  by_cases h3 : TargetVM.fetchOp vm = 3
  · simp [TargetVM.step, h0, h1, h2, h3] at heq
  by_cases h4 : TargetVM.fetchOp vm = 4
  · simp [TargetVM.step, h0, h1, h2, h3, h4, TargetVM.doRead] at heq
    obtain ⟨-, -, hv⟩ := heq
    subst hv
    constructor
    · simp only [TargetVM.vmTgt]
      omega
    · left
      simp [TargetVM.vmTgt]
  by_cases h5 : TargetVM.fetchOp vm = 5
  · simp [TargetVM.step, h0, h1, h2, h3, h4, h5, TargetVM.doReadN] at heq
    obtain ⟨-, -, hv⟩ := heq
    subst hv
    constructor
    · simp only [TargetVM.vmTgt]
      omega
    · left
      simp [TargetVM.vmTgt]
  by_cases h6 : TargetVM.fetchOp vm = 6
  · simp [TargetVM.step, h0, h1, h2, h3, h4, h5, h6, TargetVM.doWrite] at heq
    obtain ⟨-, -, hv⟩ := heq
    subst hv
    constructor
    · refine le_trans ?_ (hw n _)
      simp only [TargetVM.vmTgt]
      omega
    · left
      simp [TargetVM.vmTgt]
  by_cases h7 : TargetVM.fetchOp vm = 7
  · simp [TargetVM.step, h0, h1, h2, h3, h4, h5, h6, h7,
      TargetVM.doWriteN] at heq
    obtain ⟨-, -, hv⟩ := heq
    subst hv
    constructor
    · refine le_trans ?_ (hw n _)
      simp only [TargetVM.vmTgt]
      omega
    · left
      simp [TargetVM.vmTgt]
  by_cases h8 : TargetVM.fetchOp vm = 8
  · simp only [TargetVM.step, TargetVM.doWhileNeq] at heq
    rw [if_neg h0, if_neg h1, if_neg h2, if_neg h3, if_neg h4, if_neg h5,
      if_neg h6, if_neg h7, if_pos h8] at heq
    split at heq <;> cases heq <;> constructor
    · simp only [TargetVM.vmTgt]
      omega
    · left
      simp [TargetVM.vmTgt]
    · simp only [TargetVM.vmTgt]
      omega
    · left
      simp [TargetVM.vmTgt]
  by_cases h9 : TargetVM.fetchOp vm = 9
  · simp only [TargetVM.step, TargetVM.doWhileEq] at heq
    rw [if_neg h0, if_neg h1, if_neg h2, if_neg h3, if_neg h4, if_neg h5,
      if_neg h6, if_neg h7, if_neg h8, if_pos h9] at heq
    split at heq <;> cases heq <;> constructor
    · simp only [TargetVM.vmTgt]
      omega
    · left
      simp [TargetVM.vmTgt]
    · simp only [TargetVM.vmTgt]
      omega
    · left
      simp [TargetVM.vmTgt]
  · simp [TargetVM.step, h0, h1, h2, h3, h4, h5, h6, h7, h8, h9] at heq
    obtain ⟨-, -, hv⟩ := heq
    subst hv
    constructor
    · simp only [TargetVM.vmTgt]
      omega
    · left
      simp [TargetVM.vmTgt]

/-- Invariant of the decode loop in state EXECUTE_NEXT: the recorded fetch
offsets are non-decreasing, bounded below by the entry cursor and above by
the exit cursor, the cursor never moves backwards across the whole loop, and
the loop exits in EXECUTE_NEXT or ENDED. -/
theorem TargetVM.execLoop_inv (h : TargetVM.Host)
    (hw : ∀ n st, st.i_data.off ≤ ((h.write_cb (n, st)).2).i_data.off) :
    ∀ fuel n vm, vm.s = TargetVM.ST_EXECUTE_NEXT →
      List.Chain' (· ≤ ·) (TargetVM.execLoop h fuel n vm).fetches ∧
      (∀ y ∈ (TargetVM.execLoop h fuel n vm).fetches, vm.m.off ≤ y) ∧
      (∀ y ∈ (TargetVM.execLoop h fuel n vm).fetches,
        y ≤ (TargetVM.execLoop h fuel n vm).vm.m.off) ∧
      vm.m.off ≤ (TargetVM.execLoop h fuel n vm).vm.m.off ∧
      ((TargetVM.execLoop h fuel n vm).vm.s = TargetVM.ST_EXECUTE_NEXT ∨
       (TargetVM.execLoop h fuel n vm).vm.s = TargetVM.ST_ENDED) := by
  intro fuel
  induction fuel with
  | zero =>
    intro n vm hs
    simp [TargetVM.execLoop, hs]
  | succ fuel ih =>
    intro n vm hs
    rcases hstep : TargetVM.step h n vm with ⟨n2, vm2⟩ | ⟨r, n2, vm2⟩
    · obtain ⟨hlt, hss⟩ := TargetVM.step_cont_spec h n n2 vm vm2 hstep
      have hs2 : vm2.s = TargetVM.ST_EXECUTE_NEXT := by rw [hss, hs]
      obtain ⟨c1, c2, c3, c4, c5⟩ := ih n2 vm2 hs2
      have hres : TargetVM.execLoop h (fuel + 1) n vm =
          TargetVM.addFetch vm.m.off (TargetVM.execLoop h fuel n2 vm2) := by
        conv_lhs => unfold TargetVM.execLoop
        simp [hs, hstep]
      rw [hres]
      simp only [TargetVM.addFetch]
      refine ⟨?_, ?_, ?_, ?_, c5⟩
      · rw [List.chain'_cons']
        refine ⟨fun b hb => ?_, c1⟩
        exact le_trans hlt.le (c2 b (List.mem_of_mem_head? hb))
      · intro y hy
        rcases List.mem_cons.mp hy with rfl | hy2
        · exact le_refl _
        · exact le_trans hlt.le (c2 y hy2)
      · intro y hy
        rcases List.mem_cons.mp hy with rfl | hy2
        · exact le_trans hlt.le c4
        · exact c3 y hy2
      · exact le_trans hlt.le c4
    · obtain ⟨hle, hss⟩ := TargetVM.step_stop_spec h hw n vm r n2 vm2 hstep
      have hres : TargetVM.execLoop h (fuel + 1) n vm =
          ⟨r, vm2, n2, [vm.m.off]⟩ := by
        conv_lhs => unfold TargetVM.execLoop
        simp [hs, hstep]
      rw [hres]
      refine ⟨by simp, by simp, by simpa using hle, hle, ?_⟩
      rcases hss with hq | hq
      · exact Or.inl (hq.trans hs)
      · exact Or.inr hq

/-- From EXECUTE_NEXT or ENDED, any number of further exec calls yields a
non-decreasing sequence of fetch offsets, bounded below by any `t` that
bounds the current cursor. -/
theorem TargetVM.runN_chain (h : TargetVM.Host)
    (hw : ∀ n st, st.i_data.off ≤ ((h.write_cb (n, st)).2).i_data.off)
    (fuel : Nat) :
    ∀ k n vm t, (vm.s = TargetVM.ST_EXECUTE_NEXT → t ≤ vm.m.off) →
      (vm.s = TargetVM.ST_EXECUTE_NEXT ∨ vm.s = TargetVM.ST_ENDED) →
      List.Chain' (· ≤ ·) (TargetVM.runN h fuel k n vm).2.2 ∧
      (∀ y ∈ (TargetVM.runN h fuel k n vm).2.2, t ≤ y) := by
  intro k
  induction k with
  | zero =>
    intro n vm t h1 h2
    simp [TargetVM.runN]
  | succ k ih =>
    intro n vm t h1 h2
    have hrun : (TargetVM.runN h fuel (k + 1) n vm).2.2 =
        (TargetVM.iovm1_exec h fuel n vm).fetches ++
        (TargetVM.runN h fuel k (TargetVM.iovm1_exec h fuel n vm).hst
          (TargetVM.iovm1_exec h fuel n vm).vm).2.2 := rfl
    rcases h2 with hex | hend
    · have hexec : TargetVM.iovm1_exec h fuel n vm =
          TargetVM.execLoop h fuel n vm := by
        unfold TargetVM.iovm1_exec
        simp [hex, TargetVM.ST_EXECUTE_NEXT, TargetVM.ST_LOADED,
          TargetVM.ST_RESET]
      obtain ⟨c1, c2, c3, c4, c5⟩ := TargetVM.execLoop_inv h hw fuel n vm hex
      obtain ⟨d1, d2⟩ := ih (TargetVM.execLoop h fuel n vm).hst
        (TargetVM.execLoop h fuel n vm).vm
        (TargetVM.execLoop h fuel n vm).vm.m.off
        (fun _ => le_refl _) c5
      rw [hrun, hexec]
      constructor
      · refine List.Chain'.append c1 d1 ?_
        intro x hx y hy
        exact le_trans (c3 x (List.mem_of_mem_getLast? hx))
          (d2 y (List.mem_of_mem_head? hy))
      · intro y hy
        rcases List.mem_append.mp hy with hy2 | hy2
        · exact le_trans (h1 hex) (c2 y hy2)
        · exact le_trans (le_trans (h1 hex) c4) (d2 y hy2)
    · have hexec : TargetVM.iovm1_exec h fuel n vm =
          ⟨TargetVM.SUCCESS, vm, n, []⟩ := by
        unfold TargetVM.iovm1_exec
        cases fuel <;>
          simp [hend, TargetVM.execLoop, TargetVM.ST_EXECUTE_NEXT,
            TargetVM.ST_LOADED, TargetVM.ST_RESET, TargetVM.ST_ENDED]
      rw [hrun, hexec]
      simpa using ih n vm t h1 (Or.inr hend)

/-- Claim C4, counterexample: the claim states that within a single run the
sequence of program-buffer offsets at which exec fetches an opcode byte is
strictly increasing.  Running proc = [WHILE_NEQ(0), 0x55, END] against a
host whose WHILE_NEQ callback leaves the wait incomplete on its first
invocation and completes it on the second yields a complete run (three exec
calls from LOADED to ENDED) whose fetch-offset sequence is [0, 0, 2]: the
engine rewinds the cursor to repeat the not-yet-satisfied WHILE instruction,
so the same offset is fetched twice and the sequence is not strictly
increasing. -/
theorem C4_fetch_offsets_counterexample :
    let vml := (TargetVM.iovm1_load (TargetVM.iovm1_init TargetVM.vm0)
      (some [8, 85, 0]) 3).2
    let t := TargetVM.runN TargetVM.pollOnceHost 4 3 0 vml
    t.2.2 = [0, 0, 2] ∧ t.2.1.s = TargetVM.ST_ENDED ∧
    ¬ List.Chain' (· < ·) t.2.2 := by
  refine ⟨by decide, by decide, ?_⟩
  have ht : (TargetVM.runN TargetVM.pollOnceHost 4 3 0
      (TargetVM.iovm1_load (TargetVM.iovm1_init TargetVM.vm0)
        (some [8, 85, 0]) 3).2).2.2 = [0, 0, 2] := by decide
  rw [ht]
  simp [List.chain'_cons]

/-- Claim C4, amended: for every procedure and every single run started from
LOADED or RESET, and for hosts whose WRITE callbacks never move the program
cursor backwards (the documented behaviour is to advance it by the payload
length), the sequence of program-buffer offsets at which exec fetches an
opcode byte is non-decreasing across any number of exec calls; it fails to
be strictly increasing only where a WHILE instruction whose callback did not
complete is re-fetched at the same offset. -/
theorem C4_fetch_offsets_nondecreasing (h : TargetVM.Host)
    (hw : ∀ n st, st.i_data.off ≤ ((h.write_cb (n, st)).2).i_data.off)
    (fuel k n : Nat) (vm : TargetVM.VM)
    (hs : vm.s = TargetVM.ST_LOADED ∨ vm.s = TargetVM.ST_RESET) :
    List.Chain' (· ≤ ·) (TargetVM.runN h fuel k n vm).2.2 := by
  cases k with
  | zero => simp [TargetVM.runN]
  | succ k =>
    have hexec : TargetVM.iovm1_exec h fuel n vm =
        TargetVM.execLoop h fuel n
          { vm with m := { vm.m with off := 0 },
                    s := TargetVM.ST_EXECUTE_NEXT } := by
      unfold TargetVM.iovm1_exec
      rcases hs with h1 | h1 <;>
        simp [h1, TargetVM.ST_LOADED, TargetVM.ST_RESET,
          TargetVM.ST_EXECUTE_NEXT]
    have hrun : (TargetVM.runN h fuel (k + 1) n vm).2.2 =
        (TargetVM.iovm1_exec h fuel n vm).fetches ++
        (TargetVM.runN h fuel k (TargetVM.iovm1_exec h fuel n vm).hst
          (TargetVM.iovm1_exec h fuel n vm).vm).2.2 := rfl
    obtain ⟨c1, c2, c3, c4, c5⟩ := TargetVM.execLoop_inv h hw fuel n
      { vm with m := { vm.m with off := 0 },
                s := TargetVM.ST_EXECUTE_NEXT } rfl
    obtain ⟨d1, d2⟩ := TargetVM.runN_chain h hw fuel k
      (TargetVM.execLoop h fuel n
        { vm with m := { vm.m with off := 0 },
                  s := TargetVM.ST_EXECUTE_NEXT }).hst
      (TargetVM.execLoop h fuel n
        { vm with m := { vm.m with off := 0 },
                  s := TargetVM.ST_EXECUTE_NEXT }).vm
      (TargetVM.execLoop h fuel n
        { vm with m := { vm.m with off := 0 },
                  s := TargetVM.ST_EXECUTE_NEXT }).vm.m.off
      (fun _ => le_refl _) c5
    rw [hrun, hexec]
    refine List.Chain'.append c1 d1 ?_
    intro x hx y hy
    exact le_trans (c3 x (List.mem_of_mem_getLast? hx))
      (d2 y (List.mem_of_mem_head? hy))

/-- Witness for C4_fetch_offsets_nondecreasing: the concrete repeating-WHILE
run of the counterexample (whose fetch sequence is [0, 0, 2]) is
non-decreasing, with the identity write callback trivially
cursor-monotone. -/
theorem C4_fetch_offsets_nondecreasing_witness :
    List.Chain' (· ≤ ·)
      (TargetVM.runN TargetVM.pollOnceHost 4 3 0
        (TargetVM.iovm1_load (TargetVM.iovm1_init TargetVM.vm0)
          (some [8, 85, 0]) 3).2).2.2 :=
  C4_fetch_offsets_nondecreasing TargetVM.pollOnceHost
    (fun _ _ => le_refl _) 4 3 0
    (TargetVM.iovm1_load (TargetVM.iovm1_init TargetVM.vm0)
      (some [8, 85, 0]) 3).2
    (Or.inl rfl)

end Iovm
